import Mathlib

/-!
# pepper_dcm_driver: the `Nao` hardware driver (`src/pepper.cpp`)

A shallow embedding of the driver class `Nao` and of its control loop.

* `float` / `double` joint values are rationals (`ℚ`).  The two operations
  of `pepper.cpp` that round are modelled as IEEE 754 operations, rounding
  to nearest with ties to even: the subtraction
  `joint_commands_[i]-joint_angles_[i]` in binary64 (`toDouble`), and the
  narrowing `float(joint_commands_[i])` in binary32 (`toFloat`).  `fabs` and the
  widening of a `float` to a `double` are exact.  A result beyond the largest
  finite value of the format is `±2^(emax+1)`, which stands for `±∞`; NaN is
  not modelled.
* The bus proxies (`AL::ALMemoryProxy`, `AL::DCMProxy`), the controller manager
  and `ros::ok()` are external collaborators.  They are modelled by an
  environment `Env` of deterministic oracles: every external call is appended
  to a trace (`List Call`) and the oracle answers from the trace that ends in
  the call being made.  A call that throws `AL::ALError` / `ros::Exception` is
  an oracle answering `false` / `none`.
* Indexing a `std::vector` out of range is undefined behaviour; the embedding
  reports it as `Fault.outOfBounds` instead of picking a behaviour.
* `manager_->update` is assumed to return; `ros::Time::now()` and
  `rate.sleep()` touch no modelled state.  `setStiffness` is declared `bool`
  but has no `return`; only its effect on the bus is modelled.
* The control loop may run forever, so `controllerLoop` takes a cycle budget
  and reports `LoopResult.running` when the budget is used up.
-/

namespace PepperDCM

/-! ## Data model -/

/-- Undefined behaviour reached by the C++ code. -/
inductive Fault where
  | outOfBounds
  | nullManager
  deriving DecidableEq, Repr

/-- The `AL::ALValue` batch command `[alias, type, type2, [[[value, time]], ...]]`
built by `DCMAliasTimedCommand` and kept as the template `commands_`. -/
structure AliasCommand where
  aliasName : String
  type : String
  type2 : String
  entries : List (ℚ × Int)
  deriving DecidableEq

/-- The two `hardware_interface` objects handed to `registerInterface`. -/
inductive Interface where
  | jnt_state_interface_
  | jnt_pos_interface_
  deriving DecidableEq, Repr

/-- External calls issued by the driver, in the order they are issued. -/
inductive Call where
  | memoryProxy
  | dcmProxy
  | newControllerManager
  | createAlias (name : String) (addresses : List String)
  | getTime (offset : Int)
  | setAlias (command : AliasCommand)
  | getListData (addresses : List String)
  | registerStateHandle (joint : String)
  | registerPosHandle (joint : String)
  | registerInterface (i : Interface)
  | update
  deriving DecidableEq

/-- Calls from other threads that touch the connectivity flag. -/
inductive AsyncEvent where
  | disconnect
  | brokerDisconnected (event_name broker_name subscriber_identifier : String)
  deriving DecidableEq

/-- The external collaborators.  Each oracle receives the trace of calls
ending in the call it answers. -/
structure Env where
  /-- `AL::ALMemoryProxy(broker)` / `AL::DCMProxy(broker)` did not throw. -/
  proxyOk : List Call → Bool
  /-- `dcm_proxy_.createAlias` did not throw. -/
  createAliasOk : List Call → Bool
  /-- `dcm_proxy_.getTime(0)`: the bus clock, `none` when it throws. -/
  getTime : List Call → Option Int
  /-- `dcm_proxy_.setAlias` did not throw. -/
  setAliasOk : List Call → Bool
  /-- `memory_proxy_.getListData`: the values read, `none` when it throws. -/
  getListData : List Call → Option (List ℚ)
  /-- `registerHandle` / `getHandle` / `registerInterface` did not throw. -/
  registerOk : List Call → Bool
  /-- `manager_->update`: the command the controllers store for joint `i`,
  from the trace, the angles and the previous commands. -/
  update : List Call → List ℚ → List ℚ → Nat → ℚ
  /-- `ros::ok()` at the `k`-th evaluation of the loop condition. -/
  rosOk : Nat → Bool
  /-- The asynchronous calls that arrived before the `k`-th cycle check. -/
  async : Nat → List AsyncEvent

/-- The ROS parameter server as seen by `loadParams` (`none`: parameter absent). -/
structure ParamServer where
  Version : Option String
  BodyType : Option String
  TopicQueue : Option Int
  Prefix : Option String
  ControllerFrequency : Option ℚ
  JointPrecision : Option ℚ
  OdomFrame : Option String

/-- The fields of class `Nao` used by `pepper.cpp`.  `manager_` records
whether the pointer holds an allocated `ControllerManager`. -/
structure Nao where
  is_connected_ : Bool
  joint_names_ : List String
  joints_names_ : List String
  number_of_joints_ : Nat
  commands_ : AliasCommand
  joint_angles_ : List ℚ
  joint_velocities_ : List ℚ
  joint_efforts_ : List ℚ
  joint_commands_ : List ℚ
  manager_ : Bool
  version_ : String
  body_type_ : String
  topic_queue_ : Int
  prefix_ : String
  controller_freq_ : ℚ
  joint_precision_ : ℚ
  odom_frame_ : String

/-- Constructor `Nao::Nao(joint_names)`: only `is_connected_` and `joint_names_`
are set; containers start empty, the remaining scalars are indeterminate in
C++ and are given fixed values here. -/
def Nao.construct (joint_names : List String) : Nao :=
  { is_connected_ := false
    joint_names_ := joint_names
    joints_names_ := []
    number_of_joints_ := 0
    commands_ := { aliasName := "", type := "", type2 := "", entries := [] }
    joint_angles_ := []
    joint_velocities_ := []
    joint_efforts_ := []
    joint_commands_ := []
    manager_ := false
    version_ := ""
    body_type_ := ""
    topic_queue_ := 0
    prefix_ := ""
    controller_freq_ := 0
    joint_precision_ := 0
    odom_frame_ := "" }

/-- `std::vector<double>::resize(n)`: keep the first `n` elements, pad with `0`. -/
def resize (xs : List ℚ) (n : Nat) : List ℚ :=
  xs.take n ++ List.replicate (n - xs.length) 0

/-! ## Floating-point rounding -/

/-- Rounding to the nearest integer, ties to the even one. -/
def roundHalfEven (y : ℚ) : ℤ :=
  if y - ⌊y⌋ < 1 / 2 then ⌊y⌋
  else if 1 / 2 < y - ⌊y⌋ then ⌊y⌋ + 1
  else if ⌊y⌋ % 2 = 0 then ⌊y⌋ else ⌊y⌋ + 1

/-- The magnitude `y ≥ 0` rounded to the binary format with `prec` significand
bits, least unit in the last place `2^emin` (subnormals included) and largest
exponent `emax`: the significand `y / 2^q` is rounded to an integer, where `q`
is the exponent of the unit in the last place of `y`.  A result of `2^(emax+1)`
or more is `2^(emax+1)`, which stands for `∞`. -/
def roundMagnitude (prec : ℕ) (emin emax : ℤ) (y : ℚ) : ℚ :=
  let q := max (Int.log 2 y - (prec - 1)) emin
  min (roundHalfEven (y / 2 ^ q) * 2 ^ q) (2 ^ (emax + 1))

/-- Round to nearest, ties to even, in sign-magnitude form. -/
def roundNearest (prec : ℕ) (emin emax : ℤ) (x : ℚ) : ℚ :=
  if x < 0 then -roundMagnitude prec emin emax (-x) else roundMagnitude prec emin emax x

/-- The value of a `double` operation with exact result `x` (binary64). -/
def toDouble (x : ℚ) : ℚ := roundNearest 53 (-1074) 1023 x

/-- The conversion `float(x)` (binary32). -/
def toFloat (x : ℚ) : ℚ := roundNearest 24 (-149) 127 x

/-! ## Startup: `initialize`, `initializeControllers`, `connect` -/

/-- The array `joint[]` of `Nao::initialize`. -/
def joint : List String :=
  ["HeadYaw", "HeadPitch", "LShoulderPitch", "LShoulderRoll", "LElbowYaw",
   "LElbowRoll", "LWristYaw", "LHand", "RShoulderPitch", "RShoulderRoll",
   "RElbowYaw", "RElbowRoll", "RWristYaw", "RHand", "KneePitch", "HipRoll",
   "HipPitch"]

/-- `Nao::initialize`.  Returns the `bool` result, the new state and trace. -/
def Nao.initialize (env : Env) (s : Nao) (tr : List Call) : Bool × Nao × List Call :=
  let s := { s with joint_names_ := joint }
  let addresses := s.joint_names_.foldl
    (fun acc it => acc ++ ["Device/SubDeviceList/" ++ it ++ "/Position/Sensor/Value"])
    s.joints_names_
  let s := { s with joints_names_ := addresses }
  let s := { s with number_of_joints_ := s.joint_names_.length }
  let n := s.number_of_joints_
  -- try: create the motion command template and the actuator alias
  let s := { s with commands_ :=
    { aliasName := "Joints", type := "ClearAll", type2 := "time-mixed",
      entries := List.replicate n (0, 0) } }
  let commandAlias1 := (List.range n).foldl
    (fun arr i => arr.set i
      ("Device/SubDeviceList/" ++ s.joint_names_.getD i "" ++ "/Position/Actuator/Value"))
    (List.replicate n "")
  let tr := tr ++ [Call.createAlias "Joints" commandAlias1]
  if env.createAliasOk tr then
    -- hardness alias: the same array, resized to the same size, refilled
    let k := 0
    let commandAlias1 := (List.range n).foldl
      (fun arr i => arr.set (i + k)
        ("Device/SubDeviceList/" ++ s.joint_names_.getD i "" ++ "/Hardness/Actuator/Value"))
      (commandAlias1.take n ++ List.replicate (n - commandAlias1.length) "")
    let tr := tr ++ [Call.createAlias "JointsHardness" commandAlias1]
    if env.createAliasOk tr then (true, s, tr) else (false, s, tr)
  else (false, s, tr)

/-- The handle-registration loop of `initializeControllers`; stops at the
first call that throws `ros::Exception`. -/
def registerHandles (env : Env) : List String → List Call → Bool × List Call
  | [], tr => (true, tr)
  | name :: rest, tr =>
    let tr := tr ++ [Call.registerStateHandle name]
    if env.registerOk tr then
      let tr := tr ++ [Call.registerPosHandle name]
      if env.registerOk tr then registerHandles env rest tr else (false, tr)
    else (false, tr)

/-- `Nao::initializeControllers`. -/
def Nao.initializeControllers (env : Env) (s : Nao) (tr : List Call) :
    Bool × Nao × List Call :=
  match Nao.initialize env s tr with
  | (false, s, tr) => (false, s, tr)
  | (true, s, tr) =>
    let n := s.number_of_joints_
    let s := { s with
      joint_angles_ := resize s.joint_angles_ n
      joint_velocities_ := resize s.joint_velocities_ n
      joint_efforts_ := resize s.joint_efforts_ n
      joint_commands_ := resize s.joint_commands_ n }
    -- try: joints `joint_names_[i]`, `i < number_of_joints_`
    match registerHandles env (s.joint_names_.take n) tr with
    | (false, tr) => (false, s, tr)
    | (true, tr) =>
      let tr := tr ++ [Call.registerInterface Interface.jnt_state_interface_]
      if env.registerOk tr then
        let tr := tr ++ [Call.registerInterface Interface.jnt_pos_interface_]
        if env.registerOk tr then (true, s, tr) else (false, s, tr)
      else (false, s, tr)

/-- `Nao::loadParams`: every option falls back to its default; the default of
`JointPrecision` is the `double` literal `0.00174532925`. -/
def Nao.loadParams (p : ParamServer) (s : Nao) : Nao :=
  { s with
    version_ := p.Version.getD "V4"
    body_type_ := p.BodyType.getD "H21"
    topic_queue_ := p.TopicQueue.getD 50
    prefix_ := p.Prefix.getD "pepper_dcm" ++ "/"
    controller_freq_ := p.ControllerFrequency.getD 15
    joint_precision_ := p.JointPrecision.getD (toDouble (174532925 / 100000000000))
    odom_frame_ := p.OdomFrame.getD "odom" }

/-- `Nao::connect`, the entry point from outside. -/
def Nao.connect (env : Env) (p : ParamServer) (s : Nao) (tr : List Call) :
    Bool × Nao × List Call :=
  let s := { s with is_connected_ := false }
  let s := Nao.loadParams p s
  let tr := tr ++ [Call.memoryProxy]
  if env.proxyOk tr then
    let tr := tr ++ [Call.dcmProxy]
    if env.proxyOk tr then
      let s := { s with is_connected_ := true }
      let tr := tr ++ [Call.newControllerManager]
      let s := { s with manager_ := true }
      match Nao.initializeControllers env s tr with
      | (false, s, tr) => (false, s, tr)
      | (true, s, tr) => (true, s, tr)
    else (false, s, tr)
  else (false, s, tr)

/-- `Nao::disconnect`. -/
def Nao.disconnect (s : Nao) : Nao :=
  if !s.is_connected_ then s else { s with is_connected_ := false }

/-- `Nao::brokerDisconnected`. -/
def Nao.brokerDisconnected (s : Nao) (_event_name broker_name _subscriber_identifier : String) :
    Nao :=
  if broker_name = "Nao Driver Broker" then { s with is_connected_ := false } else s

/-- `Nao::connected`. -/
def Nao.connected (s : Nao) : Bool := s.is_connected_

/-! ## Runtime: sensor read, change detection, timed batch write -/

/-- The copy loop of `readJoints`, `for(short i = 0; i<jointData.size(); i++)`,
entered at index `i` with the values `jointData[i..]` still to copy.  The
counter is a 16-bit `short`: incrementing `32767` wraps to a negative value
that converts to a `size_t` above every vector size, which ends the loop. -/
def readJointsLoop : List ℚ → Nat → Nao → Except Fault Nao
  | [], _, s => .ok s
  | x :: rest, i, s =>
    if i < 32768 then
      if i < s.joint_angles_.length ∧ i < s.joint_commands_.length then
        readJointsLoop rest (i + 1)
          { s with
            joint_angles_ := s.joint_angles_.set i x
            joint_commands_ := s.joint_commands_.set i x }
      else .error Fault.outOfBounds
    else .ok s

/-- `Nao::readJoints`. -/
def Nao.readJoints (env : Env) (s : Nao) (tr : List Call) : Except Fault (Nao × List Call) :=
  let tr := tr ++ [Call.getListData s.joints_names_]
  match env.getListData tr with
  | none => .ok (s, tr)
  | some jointData =>
    match readJointsLoop jointData 0 s with
    | .ok s => .ok (s, tr)
    | .error e => .error e

/-- The change detector at the head of `writeJoints`: the value of `changed`
after the loop over the indices still to visit (`break` on the first hit).
The difference is a `double` subtraction; `fabs` and `>` are exact. -/
def changedLoop (s : Nao) : List Nat → Except Fault Bool
  | [] => .ok false
  | i :: rest =>
    match s.joint_commands_[i]?, s.joint_angles_[i]? with
    | some c, some a =>
      if |toDouble (c - a)| > s.joint_precision_ then .ok true else changedLoop s rest
    | _, _ => .error Fault.outOfBounds

/-- The fill loop of `writeJoints`:
`commands_[3][i][0] = [float(joint_commands_[i]), T]`. -/
def fillLoop (s : Nao) (T : Int) : List Nat → AliasCommand → Except Fault AliasCommand
  | [], c => .ok c
  | i :: rest, c =>
    match s.joint_commands_[i]? with
    | some v =>
      if i < c.entries.length then
        fillLoop s T rest { c with entries := c.entries.set i (toFloat v, T) }
      else .error Fault.outOfBounds
    | none => .error Fault.outOfBounds

/-- `Nao::writeJoints`. -/
def Nao.writeJoints (env : Env) (s : Nao) (tr : List Call) : Except Fault (Nao × List Call) :=
  match changedLoop s (List.range s.number_of_joints_) with
  | .error e => .error e
  | .ok false => .ok (s, tr)
  | .ok true =>
    -- try
    let tr := tr ++ [Call.getTime 0]
    match env.getTime tr with
    | none => .ok (s, tr)
    | some T =>
      match fillLoop s T (List.range s.number_of_joints_) s.commands_ with
      | .error e => .error e
      | .ok c =>
        let s := { s with commands_ := c }
        let tr := tr ++ [Call.setAlias c]
        if env.setAliasOk tr then .ok (s, tr) else .ok (s, tr)

/-- The entry loop of `DCMAliasTimedCommand`: `command[3][i][0] = [values[i], T+timeOffsets[i]]`. -/
def timedEntries (T : Int) : List ℚ → List Int → Except Fault (List (ℚ × Int))
  | [], _ => .ok []
  | _ :: _, [] => .error Fault.outOfBounds
  | v :: values, o :: timeOffsets =>
    match timedEntries T values timeOffsets with
    | .ok es => .ok ((v, T + o) :: es)
    | .error e => .error e

/-- `Nao::DCMAliasTimedCommand`. -/
def Nao.DCMAliasTimedCommand (env : Env) (aliasName : String) (values : List ℚ)
    (timeOffsets : List Int) (type type2 : String) (tr : List Call) :
    Except Fault (List Call) :=
  -- try
  let tr := tr ++ [Call.getTime 0]
  match env.getTime tr with
  | none => .ok tr
  | some T =>
    match timedEntries T values timeOffsets with
    | .error e => .error e
    | .ok es =>
      let command : AliasCommand :=
        { aliasName := aliasName, type := type, type2 := type2, entries := es }
      let tr := tr ++ [Call.setAlias command]
      if env.setAliasOk tr then .ok tr else .ok tr

/-- `Nao::setStiffness`.  The call leaves `type` and `type2` to the default
arguments declared in `pepper.h`, which are parameters here. -/
def Nao.setStiffness (env : Env) (type type2 : String) (s : Nao) (stiffness : ℚ)
    (tr : List Call) : Except Fault (List Call) :=
  Nao.DCMAliasTimedCommand env "JointsHardness"
    (List.replicate s.number_of_joints_ stiffness)
    (List.replicate s.number_of_joints_ 0) type type2 tr

/-! ## The control loop -/

/-- The effect of one asynchronous call on the driver. -/
def AsyncEvent.apply (s : Nao) : AsyncEvent → Nao
  | .disconnect => Nao.disconnect s
  | .brokerDisconnected e b i => Nao.brokerDisconnected s e b i

/-- The asynchronous calls of a cycle, applied in order. -/
def deliver (es : List AsyncEvent) (s : Nao) : Nao :=
  es.foldl AsyncEvent.apply s

/-- `manager_->update(time, period)`: the controllers write the command of
every joint through the registered handles. -/
def managerUpdate (env : Env) (s : Nao) (tr : List Call) : Except Fault (Nao × List Call) :=
  if s.manager_ then
    let tr := tr ++ [Call.update]
    let commands := (List.range s.joint_commands_.length).map
      (env.update tr s.joint_angles_ s.joint_commands_)
    .ok ({ s with joint_commands_ := commands }, tr)
  else .error Fault.nullManager

/-- How a bounded run of the control loop ends. -/
inductive LoopResult where
  /-- The loop was left (`ros::ok()` false, or `break`). -/
  | exited (s : Nao) (tr : List Call)
  /-- The cycle budget ran out with the loop still running. -/
  | running (s : Nao) (tr : List Call)
  /-- Undefined behaviour was reached. -/
  | fault (e : Fault)

/-- `Nao::controllerLoop`, run for at most `fuel` evaluations of the loop
condition, the next one being the `k`-th. -/
def Nao.controllerLoop (env : Env) : Nat → Nat → Nao → List Call → LoopResult
  | 0, _, s, tr => .running s tr
  | fuel + 1, k, s, tr =>
    let s := deliver (env.async k) s
    if env.rosOk k then
      if !s.is_connected_ then .exited s tr
      else
        match Nao.readJoints env s tr with
        | .error e => .fault e
        | .ok (s, tr) =>
          match managerUpdate env s tr with
          | .error e => .fault e
          | .ok (s, tr) =>
            match Nao.writeJoints env s tr with
            | .error e => .fault e
            | .ok (s, tr) => Nao.controllerLoop env fuel (k + 1) s tr
    else .exited s tr

/-- `Nao::run`. -/
def Nao.run (env : Env) (fuel : Nat) (s : Nao) (tr : List Call) : LoopResult :=
  Nao.controllerLoop env fuel 0 s tr

/-! ## Sample collaborators and driver states -/

/-- A bus on which every call succeeds: the clock reads `1000`, every sensor
reads `1`, the controllers keep the commands, and `ros::ok()` holds for the
first three cycle checks. -/
def okEnv : Env :=
  { proxyOk := fun _ => true
    createAliasOk := fun _ => true
    getTime := fun _ => some 1000
    setAliasOk := fun _ => true
    getListData := fun _ => some (List.replicate 17 1)
    registerOk := fun _ => true
    update := fun _ _ commands i => commands.getD i 0
    rosOk := fun k => decide (k < 3)
    async := fun _ => [] }

/-- A bus that refuses every alias registration. -/
def aliasFailEnv : Env := { okEnv with createAliasOk := fun _ => false }

/-- A bus that accepts "Joints" and refuses "JointsHardness". -/
def hardnessFailEnv : Env :=
  { okEnv with createAliasOk := fun tr =>
      match tr.getLast? with
      | some (Call.createAlias name _) => name != "JointsHardness"
      | _ => true }

/-- A bus whose batched sensor read throws. -/
def readFailEnv : Env := { okEnv with getListData := fun _ => none }

/-- A parameter server with no option set. -/
def noParams : ParamServer :=
  { Version := none, BodyType := none, TopicQueue := none, Prefix := none,
    ControllerFrequency := none, JointPrecision := none, OdomFrame := none }

/-- The driver after one successful `connect` on `okEnv`. -/
def readyNao : Nao := (Nao.connect okEnv noParams (Nao.construct []) []).2.1

/-- The number of calls of a trace that satisfy `p`. -/
def countCalls (p : Call → Bool) (tr : List Call) : Nat := tr.countP p

/-- Sensor reads. -/
def Call.isRead : Call → Bool
  | .getListData _ => true
  | _ => false

/-- Controller updates. -/
def Call.isUpdate : Call → Bool
  | .update => true
  | _ => false

/-- Handle and interface registrations with the controller framework. -/
def Call.isRegistration : Call → Bool
  | .registerStateHandle _ => true
  | .registerPosHandle _ => true
  | .registerInterface _ => true
  | _ => false

/-- Calls that go to the bus proxies. -/
def Call.isBusCall : Call → Bool
  | .createAlias _ _ => true
  | .getTime _ => true
  | .setAlias _ => true
  | .getListData _ => true
  | _ => false

/-- The asynchronous calls that clear the connectivity flag: `disconnect()` and
`brokerDisconnected` naming the driver's own broker. -/
def AsyncEvent.clearsFlag : AsyncEvent → Bool
  | .disconnect => true
  | .brokerDisconnected _ broker_name _ => decide (broker_name = "Nao Driver Broker")

/-- The state in which `run` is meant to be entered: connected, with a
controller manager, and with one slot per joint in the angle vector, the
command vector and the command template. -/
def Nao.Ready (s : Nao) : Prop :=
  s.is_connected_ = true ∧ s.manager_ = true ∧
  s.joint_angles_.length = s.number_of_joints_ ∧
  s.joint_commands_.length = s.number_of_joints_ ∧
  s.commands_.entries.length = s.number_of_joints_

instance (s : Nao) : Decidable s.Ready := by
  unfold Nao.Ready
  infer_instance

/-- A bus whose batched sensor read answers one value per requested address. -/
def echoEnv : Env :=
  { okEnv with getListData := fun tr =>
      match tr.getLast? with
      | some (Call.getListData addresses) => some (addresses.map fun _ => 1)
      | _ => none }

/-- A bus on which the memory proxy cannot be acquired. -/
def noProxyEnv : Env := { okEnv with proxyOk := fun _ => false }

/-- A bus whose `setAlias` throws on every third write. -/
def thirdWriteFailsEnv : Env :=
  { okEnv with
    setAliasOk := fun tr => decide ((tr.countP fun c => c matches Call.setAlias _) % 3 ≠ 0)
    update := fun _ angles _ i => angles.getD i 0 + 1
    rosOk := fun k => decide (k < 5) }

/-- A bus session during which `disconnect()` is called before the second
cycle check. -/
def disconnectEnv : Env :=
  { okEnv with async := fun k => if k = 1 then [AsyncEvent.disconnect] else [] }

/-! ## Lemmas on rounding -/

theorem roundHalfEven_intCast (m : ℤ) : roundHalfEven (m : ℚ) = m := by
  simp [roundHalfEven]

theorem roundHalfEven_of_near {y : ℚ} {m : ℤ} (h : |y - m| < 1 / 2) : roundHalfEven y = m := by
  rw [abs_lt] at h
  by_cases hge : (m : ℚ) ≤ y
  · have hf : ⌊y⌋ = m := Int.floor_eq_iff.mpr ⟨hge, by linarith⟩
    unfold roundHalfEven
    rw [hf, if_pos (by linarith)]
  · push_neg at hge
    have hf : ⌊y⌋ = m - 1 := Int.floor_eq_iff.mpr ⟨by push_cast; linarith, by push_cast; linarith⟩
    unfold roundHalfEven
    rw [hf]
    push_cast
    rw [if_neg (by linarith), if_pos (by linarith)]
    omega

theorem log_two_eq {y : ℚ} {e : ℤ} (hlo : (2 : ℚ) ^ e ≤ y) (hhi : y < (2 : ℚ) ^ (e + 1)) :
    Int.log 2 y = e := by
  have hy : 0 < y := lt_of_lt_of_le (by positivity) hlo
  have h1 : e ≤ Int.log 2 y := (Int.zpow_le_iff_le_log (by norm_num) hy).mp (by exact_mod_cast hlo)
  have h2 : Int.log 2 y < e + 1 := (Int.lt_zpow_iff_log_lt (by norm_num) hy).mp (by exact_mod_cast hhi)
  omega

theorem roundMagnitude_zero (prec : ℕ) (emin emax : ℤ) : roundMagnitude prec emin emax 0 = 0 := by
  unfold roundMagnitude
  simp only [zero_div]
  have h0 : roundHalfEven 0 = 0 := by simpa using roundHalfEven_intCast 0
  rw [h0, Int.cast_zero, zero_mul]
  exact min_eq_left (by positivity)


/-- Evaluation of a rounding away from ties. -/
theorem roundMagnitude_of_near (prec : ℕ) (emin emax : ℤ) {y : ℚ} {e m : ℤ}
    (hlo : (2 : ℚ) ^ e ≤ y) (hhi : y < (2 : ℚ) ^ (e + 1))
    (hnear : |y / 2 ^ (max (e - (prec - 1)) emin) - m| < 1 / 2)
    (hfin : (m : ℚ) * 2 ^ (max (e - (prec - 1)) emin) ≤ 2 ^ (emax + 1)) :
    roundMagnitude prec emin emax y = m * 2 ^ (max (e - (prec - 1)) emin) := by
  unfold roundMagnitude
  simp only []
  rw [log_two_eq hlo hhi, roundHalfEven_of_near hnear]
  exact min_eq_left hfin

theorem toDouble_zero : toDouble 0 = 0 := by
  unfold toDouble roundNearest
  rw [if_neg (lt_irrefl 0), roundMagnitude_zero]

/-- The `double` literal `0.00174532925`. -/
theorem toDouble_default_precision :
    toDouble (174532925 / 100000000000) = 8048910499777359 / 2 ^ 62 := by
  have hpos : ¬ ((174532925 / 100000000000 : ℚ) < 0) := by norm_num
  unfold toDouble roundNearest
  rw [if_neg hpos,
    roundMagnitude_of_near 53 (-1074) 1023 (e := -10) (m := 8048910499777359)
      (by norm_num) (by norm_num) (by norm_num [abs_lt]) (by norm_num)]
  norm_num

/-- The copy loop never faults when the values still to copy fit into both
vectors; it touches only `joint_angles_` and `joint_commands_`, keeps their
lengths, and stores the same value in both at every index it visits. -/
theorem readJointsLoop_frame (data : List ℚ) : ∀ (i : Nat) (s : Nao),
    i + data.length ≤ s.joint_angles_.length →
    i + data.length ≤ s.joint_commands_.length →
    ∃ A C, readJointsLoop data i s =
        .ok { s with joint_angles_ := A, joint_commands_ := C } ∧
      A.length = s.joint_angles_.length ∧ C.length = s.joint_commands_.length ∧
      (∀ j, A[j]? = if i ≤ j ∧ j < i + data.length ∧ j < 32768 then data[j - i]?
                    else s.joint_angles_[j]?) ∧
      (∀ j, C[j]? = if i ≤ j ∧ j < i + data.length ∧ j < 32768 then data[j - i]?
                    else s.joint_commands_[j]?) := by
  induction data with
  | nil =>
    intro i s _ _
    refine ⟨s.joint_angles_, s.joint_commands_, rfl, rfl, rfl, ?_, ?_⟩ <;>
      intro j <;>
      · have h2 : ¬ (i ≤ j ∧ j < i + 0 ∧ j < 32768) := by omega
        simp only [List.length_nil, h2, if_false]
  | cons x rest ih =>
    intro i s ha hc
    simp only [List.length_cons] at ha hc
    by_cases h16 : i < 32768
    · have hia : i < s.joint_angles_.length := by omega
      have hic : i < s.joint_commands_.length := by omega
      obtain ⟨A, C, hrun, hA, hC, hAj, hCj⟩ := ih (i + 1)
        { s with joint_angles_ := s.joint_angles_.set i x
                 joint_commands_ := s.joint_commands_.set i x }
        (by simp; omega) (by simp; omega)
      refine ⟨A, C, ?_, by simpa using hA, by simpa using hC, ?_, ?_⟩
      · simp only [readJointsLoop, h16, hia, hic, and_self, if_true]
        exact hrun
      · intro j
        rw [hAj j]
        simp only [List.length_cons, List.getElem?_set]
        by_cases hj : i = j
        · subst hj
          simp [hia, h16]
        · by_cases hlt : i + 1 ≤ j ∧ j < i + 1 + rest.length ∧ j < 32768
          · have h2 : i ≤ j ∧ j < i + (rest.length + 1) ∧ j < 32768 := by omega
            have h3 : j - i = (j - (i + 1)) + 1 := by omega
            simp [hlt, h2, h3]
          · have h2 : ¬ (i ≤ j ∧ j < i + (rest.length + 1) ∧ j < 32768) := by omega
            simp [hlt, h2, hj]
      · intro j
        rw [hCj j]
        simp only [List.length_cons, List.getElem?_set]
        by_cases hj : i = j
        · subst hj
          simp [hic, h16]
        · by_cases hlt : i + 1 ≤ j ∧ j < i + 1 + rest.length ∧ j < 32768
          · have h2 : i ≤ j ∧ j < i + (rest.length + 1) ∧ j < 32768 := by omega
            have h3 : j - i = (j - (i + 1)) + 1 := by omega
            simp [hlt, h2, h3]
          · have h2 : ¬ (i ≤ j ∧ j < i + (rest.length + 1) ∧ j < 32768) := by omega
            simp [hlt, h2, hj]
    · refine ⟨s.joint_angles_, s.joint_commands_, ?_, rfl, rfl, ?_, ?_⟩
      · simp [readJointsLoop, h16]
      · intro j
        have h2 : ¬ (i ≤ j ∧ j < i + (rest.length + 1) ∧ j < 32768) := by omega
        simp [h2]
      · intro j
        have h2 : ¬ (i ≤ j ∧ j < i + (rest.length + 1) ∧ j < 32768) := by omega
        simp [h2]

/-- The change detector is a short-circuiting any-match over the visited
indices, provided they are valid for both vectors. -/
theorem changedLoop_eq_any (s : Nao) : ∀ is : List Nat,
    (∀ i ∈ is, i < s.joint_commands_.length ∧ i < s.joint_angles_.length) →
    changedLoop s is = .ok (is.any fun i =>
      decide (|toDouble (s.joint_commands_.getD i 0 - s.joint_angles_.getD i 0)| > s.joint_precision_)) := by
  intro is
  induction is with
  | nil => intro _; rfl
  | cons i rest ih =>
    intro h
    have hi := h i (List.mem_cons_self i rest)
    have hrest := ih (fun j hj => h j (List.mem_cons_of_mem i hj))
    have hc : s.joint_commands_[i]? = some (s.joint_commands_.getD i 0) := by
      simp [List.getD_eq_getElem?_getD, List.getElem?_eq_getElem hi.1]
    have ha : s.joint_angles_[i]? = some (s.joint_angles_.getD i 0) := by
      simp [List.getD_eq_getElem?_getD, List.getElem?_eq_getElem hi.2]
    simp only [changedLoop, hc, ha, List.any_cons]
    by_cases hgt : |toDouble (s.joint_commands_.getD i 0 - s.joint_angles_.getD i 0)| > s.joint_precision_
    · rw [if_pos hgt]
      simp only [decide_eq_true hgt, Bool.true_or]
    · rw [if_neg hgt, hrest]
      simp only [decide_eq_false hgt, Bool.false_or]

/-- The fill loop never faults on valid indices; it keeps the header of the
template and the number of entries, and every visited entry becomes
`(joint_commands_[i], T)`. -/
theorem fillLoop_spec (s : Nao) (T : Int) : ∀ (is : List Nat) (c : AliasCommand),
    (∀ i ∈ is, i < s.joint_commands_.length ∧ i < c.entries.length) →
    ∃ es, fillLoop s T is c = .ok { c with entries := es } ∧
      es.length = c.entries.length ∧
      ∀ j, es[j]? = if j ∈ is then (s.joint_commands_[j]?).map (fun v => (toFloat v, T))
                    else c.entries[j]? := by
  intro is
  induction is with
  | nil =>
    intro c _
    exact ⟨c.entries, rfl, rfl, fun j => by simp⟩
  | cons i rest ih =>
    intro c h
    have hi := h i (List.mem_cons_self i rest)
    obtain ⟨v, hv⟩ : ∃ v, s.joint_commands_[i]? = some v :=
      ⟨_, List.getElem?_eq_getElem hi.1⟩
    obtain ⟨es, hrun, hlen, hj⟩ := ih
      { c with entries := c.entries.set i (toFloat v, T) }
      (fun j hjm => by
        have := h j (List.mem_cons_of_mem i hjm)
        simpa using this)
    refine ⟨es, ?_, by simpa using hlen, ?_⟩
    · simp only [fillLoop, hv, hi.2, if_true]
      exact hrun
    · intro j
      rw [hj j]
      by_cases hjr : j ∈ rest
      · simp [hjr]
      · by_cases hji : i = j
        · subst hji
          simp [hjr, hv, hi.2, List.getElem?_set]
        · have hne : j ≠ i := fun e => hji e.symm
          simp [hjr, hne, hji, List.getElem?_set]

/-- On a driver whose vectors and template hold one slot per joint, the
fill loop over all joints yields the command vector paired with `T`. -/
theorem fillLoop_all (s : Nao) (T : Int)
    (hc : s.joint_commands_.length = s.number_of_joints_)
    (he : s.commands_.entries.length = s.number_of_joints_) :
    fillLoop s T (List.range s.number_of_joints_) s.commands_ =
      .ok { s.commands_ with entries := s.joint_commands_.map fun v => (toFloat v, T) } := by
  obtain ⟨es, hrun, hlen, hj⟩ := fillLoop_spec s T (List.range s.number_of_joints_) s.commands_
    (fun i hi => by
      have := List.mem_range.mp hi
      omega)
  rw [hrun]
  have : es = s.joint_commands_.map fun v => (toFloat v, T) := by
    apply List.ext_getElem?
    intro j
    rw [hj j, List.getElem?_map]
    by_cases hlt : j < s.number_of_joints_
    · simp [List.mem_range, hlt]
    · have h1 : s.commands_.entries[j]? = none := List.getElem?_eq_none (by omega)
      have h2 : s.joint_commands_[j]? = none := List.getElem?_eq_none (by omega)
      simp [List.mem_range, hlt, h1, h2]
  rw [this]

/-- A sensor read that returns one value per joint stores the values in both
`joint_angles_` and `joint_commands_` and changes nothing else. -/
theorem readJoints_full (env : Env) (s : Nao) (tr : List Call) (data : List ℚ)
    (hread : env.getListData (tr ++ [Call.getListData s.joints_names_]) = some data)
    (hn : data.length = s.number_of_joints_)
    (ha : s.joint_angles_.length = s.number_of_joints_)
    (hc : s.joint_commands_.length = s.number_of_joints_)
    (h16 : s.number_of_joints_ ≤ 32768) :
    Nao.readJoints env s tr =
      .ok ({ s with joint_angles_ := data, joint_commands_ := data },
           tr ++ [Call.getListData s.joints_names_]) := by
  obtain ⟨A, C, hrun, hA, hC, hAj, hCj⟩ := readJointsLoop_frame data 0 s (by omega) (by omega)
  have hAd : A = data := by
    apply List.ext_getElem?
    intro j
    rw [hAj j]
    by_cases hlt : j < data.length
    · have h1 : 0 ≤ j ∧ j < 0 + data.length ∧ j < 32768 := by omega
      rw [if_pos h1, Nat.sub_zero]
    · have h1 : ¬ (0 ≤ j ∧ j < 0 + data.length ∧ j < 32768) := by omega
      have h2 : s.joint_angles_[j]? = none := List.getElem?_eq_none (by omega)
      have h3 : data[j]? = none := List.getElem?_eq_none (by omega)
      simp [h1, h2, h3]
  have hCd : C = data := by
    apply List.ext_getElem?
    intro j
    rw [hCj j]
    by_cases hlt : j < data.length
    · have h1 : 0 ≤ j ∧ j < 0 + data.length ∧ j < 32768 := by omega
      rw [if_pos h1, Nat.sub_zero]
    · have h1 : ¬ (0 ≤ j ∧ j < 0 + data.length ∧ j < 32768) := by omega
      have h2 : s.joint_commands_[j]? = none := List.getElem?_eq_none (by omega)
      have h3 : data[j]? = none := List.getElem?_eq_none (by omega)
      simp [h1, h2, h3]
  subst hAd
  subst hCd
  simp only [Nao.readJoints, hread, hrun]

/-- When no joint differs, `writeJoints` returns without touching the bus. -/
theorem writeJoints_silent (env : Env) (s : Nao) (tr : List Call)
    (ha : s.joint_angles_.length = s.number_of_joints_)
    (hc : s.joint_commands_.length = s.number_of_joints_)
    (hall : ∀ i, i < s.number_of_joints_ →
      |toDouble (s.joint_commands_.getD i 0 - s.joint_angles_.getD i 0)| ≤ s.joint_precision_) :
    changedLoop s (List.range s.number_of_joints_) = .ok false ∧
    Nao.writeJoints env s tr = .ok (s, tr) := by
  have hch := changedLoop_eq_any s (List.range s.number_of_joints_)
    (fun i hi => by
      have := List.mem_range.mp hi
      omega)
  have hfalse : (List.range s.number_of_joints_).any (fun i =>
      decide (|toDouble (s.joint_commands_.getD i 0 - s.joint_angles_.getD i 0)| > s.joint_precision_))
      = false := by
    rw [List.any_eq_false]
    intro i hi
    have := hall i (List.mem_range.mp hi)
    simp only [gt_iff_lt, decide_eq_true_eq, not_lt]
    exact this
  rw [hfalse] at hch
  refine ⟨hch, ?_⟩
  simp only [Nao.writeJoints, hch]

/-! ## Claims on the joint state: sensor read and change detection -/

/-- C3: when the batched sensor read throws, `readJoints` returns normally and
the driver, in particular `joint_angles_` and `joint_commands_`, is unchanged. -/
theorem readJoints_failure_keeps_state (env : Env) (s : Nao) (tr : List Call)
    (hfail : env.getListData (tr ++ [Call.getListData s.joints_names_]) = none) :
    ∃ s1 tr1, Nao.readJoints env s tr = .ok (s1, tr1) ∧
      s1.joint_angles_ = s.joint_angles_ ∧ s1.joint_commands_ = s.joint_commands_ ∧
      s1 = s ∧ tr1 = tr ++ [Call.getListData s.joints_names_] := by
  refine ⟨s, tr ++ [Call.getListData s.joints_names_], ?_, rfl, rfl, rfl, rfl⟩
  simp only [Nao.readJoints, hfail]

/-- C4: after a sensor read that succeeds with one value per joint, every
joint `i` (so every joint without an explicit command) has
`command[i] = angle[i]` and `angle[i]` is the `i`-th value read. -/
theorem readJoints_success_command_eq_angle (env : Env) (s : Nao) (tr : List Call)
    (data : List ℚ)
    (hread : env.getListData (tr ++ [Call.getListData s.joints_names_]) = some data)
    (hn : data.length = s.number_of_joints_)
    (ha : s.joint_angles_.length = s.number_of_joints_)
    (hc : s.joint_commands_.length = s.number_of_joints_)
    (h16 : s.number_of_joints_ ≤ 32768) :
    ∃ s1 tr1, Nao.readJoints env s tr = .ok (s1, tr1) ∧
      ∀ i, i < s.number_of_joints_ →
        s1.joint_commands_[i]? = s1.joint_angles_[i]? ∧
        s1.joint_angles_[i]? = data[i]? ∧ (data[i]?).isSome = true := by
  refine ⟨_, _, readJoints_full env s tr data hread hn ha hc h16, ?_⟩
  intro i hi
  refine ⟨rfl, rfl, ?_⟩
  rw [List.getElem?_eq_getElem (by omega)]
  rfl

/-- C10: a sensor read that succeeds with one value per joint overwrites the
whole command vector with the values read, whatever it held before, so that a
`writeJoints` run right after it, with any precision `≥ 0`, leaves the trace
as it is: no `getTime`, no `setAlias`. -/
theorem read_then_write_is_silent (env : Env) (s : Nao) (tr : List Call) (data : List ℚ)
    (hread : env.getListData (tr ++ [Call.getListData s.joints_names_]) = some data)
    (hn : data.length = s.number_of_joints_)
    (ha : s.joint_angles_.length = s.number_of_joints_)
    (hc : s.joint_commands_.length = s.number_of_joints_)
    (h16 : s.number_of_joints_ ≤ 32768)
    (hp : 0 ≤ s.joint_precision_) :
    ∃ s1 tr1, Nao.readJoints env s tr = .ok (s1, tr1) ∧
      s1.joint_commands_ = data ∧ s1.joint_angles_ = data ∧
      tr1 = tr ++ [Call.getListData s.joints_names_] ∧
      Nao.writeJoints env s1 tr1 = .ok (s1, tr1) := by
  refine ⟨_, _, readJoints_full env s tr data hread hn ha hc h16, rfl, rfl, rfl, ?_⟩
  refine (writeJoints_silent env _ _ hn hn ?_).2
  intro i _
  simp only [sub_self, toDouble_zero, abs_zero]
  exact hp

/-- A sensor read on the bus whose `getListData` throws, from the connected driver. -/
theorem readJoints_failure_keeps_state_witness :
    readFailEnv.getListData ([] ++ [Call.getListData readyNao.joints_names_]) = none ∧
    ∃ s1 tr1, Nao.readJoints readFailEnv readyNao [] = .ok (s1, tr1) ∧
      s1.joint_angles_ = readyNao.joint_angles_ ∧
      s1.joint_commands_ = readyNao.joint_commands_ ∧
      s1 = readyNao ∧ tr1 = [] ++ [Call.getListData readyNao.joints_names_] :=
  ⟨rfl, readJoints_failure_keeps_state readFailEnv readyNao [] rfl⟩

/-- A sensor read of 17 values on the connected 17-joint driver. -/
theorem readJoints_success_command_eq_angle_witness :
    okEnv.getListData ([] ++ [Call.getListData readyNao.joints_names_])
      = some (List.replicate 17 1) ∧
    (List.replicate 17 (1 : ℚ)).length = readyNao.number_of_joints_ ∧
    readyNao.joint_angles_.length = readyNao.number_of_joints_ ∧
    readyNao.joint_commands_.length = readyNao.number_of_joints_ ∧
    readyNao.number_of_joints_ ≤ 32768 ∧
    ∃ s1 tr1, Nao.readJoints okEnv readyNao [] = .ok (s1, tr1) ∧
      ∀ i, i < readyNao.number_of_joints_ →
        s1.joint_commands_[i]? = s1.joint_angles_[i]? ∧
        s1.joint_angles_[i]? = (List.replicate 17 (1 : ℚ))[i]? ∧
        ((List.replicate 17 (1 : ℚ))[i]?).isSome = true :=
  ⟨rfl, rfl, rfl, rfl, by decide,
    readJoints_success_command_eq_angle okEnv readyNao [] (List.replicate 17 1)
      rfl rfl rfl rfl (by decide)⟩

/-- A read of 17 values followed by the write phase, at the default precision. -/
theorem read_then_write_is_silent_witness :
    okEnv.getListData ([] ++ [Call.getListData readyNao.joints_names_])
      = some (List.replicate 17 1) ∧
    (List.replicate 17 (1 : ℚ)).length = readyNao.number_of_joints_ ∧
    readyNao.joint_angles_.length = readyNao.number_of_joints_ ∧
    readyNao.joint_commands_.length = readyNao.number_of_joints_ ∧
    readyNao.number_of_joints_ ≤ 32768 ∧
    0 ≤ readyNao.joint_precision_ ∧
    ∃ s1 tr1, Nao.readJoints okEnv readyNao [] = .ok (s1, tr1) ∧
      s1.joint_commands_ = List.replicate 17 1 ∧ s1.joint_angles_ = List.replicate 17 1 ∧
      tr1 = [] ++ [Call.getListData readyNao.joints_names_] ∧
      Nao.writeJoints okEnv s1 tr1 = .ok (s1, tr1) :=
  have hp : 0 ≤ readyNao.joint_precision_ := by
    have h : readyNao.joint_precision_ = toDouble (174532925 / 100000000000) := rfl
    rw [h, toDouble_default_precision]
    norm_num
  ⟨rfl, rfl, rfl, rfl, by decide, hp,
    read_then_write_is_silent okEnv readyNao [] (List.replicate 17 1)
      rfl rfl rfl rfl (by decide) hp⟩

/-! ## Claims on the timed batch writer and the alias registry -/

/-- Broadcasting one value with zero offsets yields one entry `(v, T)` per slot. -/
theorem timedEntries_replicate (T : Int) (v : ℚ) : ∀ n : Nat,
    timedEntries T (List.replicate n v) (List.replicate n 0) =
      .ok (List.replicate n (v, T)) := by
  intro n
  induction n with
  | zero => rfl
  | succ n ih => simp only [List.replicate_succ, timedEntries, ih, add_zero]

/-- C5: when the bus clock answers `T`, `setStiffness(stiffness)` issues, after
the clock query, exactly one `setAlias`, addressed to "JointsHardness", with
exactly `number_of_joints_` entries, each the pair `(stiffness, T + 0)`;
this holds whether or not the bus then accepts the write. -/
theorem setStiffness_broadcast (env : Env) (type type2 : String) (s : Nao)
    (stiffness : ℚ) (tr : List Call) (T : Int)
    (hT : env.getTime (tr ++ [Call.getTime 0]) = some T) :
    ∃ command, Nao.setStiffness env type type2 s stiffness tr =
        .ok (tr ++ [Call.getTime 0, Call.setAlias command]) ∧
      command.aliasName = "JointsHardness" ∧
      command.entries.length = s.number_of_joints_ ∧
      (∀ e ∈ command.entries, e = (stiffness, T + 0)) ∧
      command.entries = List.replicate s.number_of_joints_ (stiffness, T) := by
  refine ⟨{ aliasName := "JointsHardness", type := type, type2 := type2,
            entries := List.replicate s.number_of_joints_ (stiffness, T) }, ?_, rfl,
          List.length_replicate _ _, ?_, rfl⟩
  · simp only [Nao.setStiffness, Nao.DCMAliasTimedCommand, hT, timedEntries_replicate,
      ite_self, List.append_assoc, List.singleton_append]
  · intro e he
    rw [add_zero]
    exact List.eq_of_mem_replicate he

/-- The call `setStiffness(0.8)` on the connected driver with the bus clock at `1000`. -/
theorem setStiffness_broadcast_witness :
    okEnv.getTime ([] ++ [Call.getTime 0]) = some 1000 ∧
    ∃ command, Nao.setStiffness okEnv "Merge" "time-mixed" readyNao (4 / 5) [] =
        .ok ([] ++ [Call.getTime 0, Call.setAlias command]) ∧
      command.aliasName = "JointsHardness" ∧
      command.entries.length = readyNao.number_of_joints_ ∧
      (∀ e ∈ command.entries, e = ((4 / 5 : ℚ), (1000 : Int) + 0)) ∧
      command.entries = List.replicate readyNao.number_of_joints_ (4 / 5, 1000) :=
  ⟨rfl, setStiffness_broadcast okEnv "Merge" "time-mixed" readyNao (4 / 5) [] 1000 rfl⟩

/-- Whatever the bus answers, `initialize` resets the joint list and the joint
count, and appends one sensor address per joint to `joints_names_`. -/
theorem initialize_state (env : Env) (s : Nao) (tr : List Call) :
    ( Nao.initialize env s tr).2.1.joint_names_ = joint ∧
    ( Nao.initialize env s tr).2.1.number_of_joints_ = 17 ∧
    ( Nao.initialize env s tr).2.1.joints_names_ = s.joints_names_ ++
      joint.map (fun j => "Device/SubDeviceList/" ++ j ++ "/Position/Sensor/Value") ∧
    ( Nao.initialize env s tr).2.1.is_connected_ = s.is_connected_ := by
  unfold Nao.initialize
  simp only []
  split <;> [split; skip] <;> exact ⟨rfl, rfl, by simp [joint], rfl⟩

/-- C8: on a bus that accepts both registrations, `initialize` on a driver
whose sensor address list is still empty (a freshly constructed one) issues
exactly two `createAlias` calls, "Joints" then "JointsHardness", each with one
address per joint in joint-list order built from the joint name alone, and
leaves one sensor address per joint, in the same order, in `joints_names_`. -/
theorem initialize_registers_aliases (env : Env) (s : Nao) (tr : List Call)
    (hfresh : s.joints_names_ = [])
    (hok : ∀ h, env.createAliasOk h = true) :
    ∃ s1, Nao.initialize env s tr = (true, s1, tr ++
        [Call.createAlias "Joints"
           (joint.map fun j => "Device/SubDeviceList/" ++ j ++ "/Position/Actuator/Value"),
         Call.createAlias "JointsHardness"
           (joint.map fun j => "Device/SubDeviceList/" ++ j ++ "/Hardness/Actuator/Value")]) ∧
      s1.joint_names_ = joint ∧ s1.number_of_joints_ = joint.length ∧
      s1.joints_names_ =
        joint.map (fun j => "Device/SubDeviceList/" ++ j ++ "/Position/Sensor/Value") ∧
      joint.length = 17 := by
  have hst := initialize_state env s tr
  refine ⟨( Nao.initialize env s tr).2.1, ?_, hst.1, hst.2.1, ?_, rfl⟩
  · simp only [ Nao.initialize, hok, if_true, List.append_assoc, List.singleton_append]
    rfl
  · rw [hst.2.2.1, hfresh, List.nil_append]

/-- A freshly constructed driver on the bus that accepts every call; the joint list passed to the constructor is replaced by the array `joint`. -/
theorem initialize_registers_aliases_witness :
    (Nao.construct ["HeadYaw"]).joints_names_ = [] ∧
    (∀ h, okEnv.createAliasOk h = true) ∧
    ∃ s1, Nao.initialize okEnv (Nao.construct ["HeadYaw"]) [] = (true, s1, [] ++
        [Call.createAlias "Joints"
           (joint.map fun j => "Device/SubDeviceList/" ++ j ++ "/Position/Actuator/Value"),
         Call.createAlias "JointsHardness"
           (joint.map fun j => "Device/SubDeviceList/" ++ j ++ "/Hardness/Actuator/Value")]) ∧
      s1.joint_names_ = joint ∧ s1.number_of_joints_ = joint.length ∧
      s1.joints_names_ =
        joint.map (fun j => "Device/SubDeviceList/" ++ j ++ "/Position/Sensor/Value") ∧
      joint.length = 17 :=
  ⟨rfl, fun _ => rfl,
    initialize_registers_aliases okEnv (Nao.construct ["HeadYaw"]) [] rfl (fun _ => rfl)⟩

/-! ## Claims on the connection lifecycle -/

/-- The state left by `initializeControllers` differs from the one left by
`initialize` only in the four per-joint vectors. -/
theorem initializeControllers_state (env : Env) (s : Nao) (tr : List Call) :
    (Nao.initializeControllers env s tr).2.1.joint_names_ =
      ( Nao.initialize env s tr).2.1.joint_names_ ∧
    (Nao.initializeControllers env s tr).2.1.number_of_joints_ =
      ( Nao.initialize env s tr).2.1.number_of_joints_ ∧
    (Nao.initializeControllers env s tr).2.1.joints_names_ =
      ( Nao.initialize env s tr).2.1.joints_names_ ∧
    (Nao.initializeControllers env s tr).2.1.is_connected_ =
      ( Nao.initialize env s tr).2.1.is_connected_ := by
  unfold Nao.initializeControllers
  rcases hinit : Nao.initialize env s tr with ⟨b, s1, tr1⟩
  cases b
  · exact ⟨rfl, rfl, rfl, rfl⟩
  · simp only []
    split
    · exact ⟨rfl, rfl, rfl, rfl⟩
    · split <;> [split; skip] <;> exact ⟨rfl, rfl, rfl, rfl⟩

/-- Once both proxies are acquired, `connect` leaves the connectivity flag set,
the joint list and count reset, and `joints_names_` longer by one sensor
address per joint, whatever happens afterwards. -/
theorem connect_state (env : Env) (p : ParamServer) (s : Nao) (tr : List Call)
    (hm : env.proxyOk (tr ++ [Call.memoryProxy]) = true)
    (hd : env.proxyOk (tr ++ [Call.memoryProxy, Call.dcmProxy]) = true) :
    (Nao.connect env p s tr).2.1.is_connected_ = true ∧
    (Nao.connect env p s tr).2.1.joint_names_ = joint ∧
    (Nao.connect env p s tr).2.1.number_of_joints_ = 17 ∧
    (Nao.connect env p s tr).2.1.joints_names_ = s.joints_names_ ++
      joint.map (fun j => "Device/SubDeviceList/" ++ j ++ "/Position/Sensor/Value") := by
  have hd1 : env.proxyOk (tr ++ [Call.memoryProxy] ++ [Call.dcmProxy]) = true := by
    simpa using hd
  unfold Nao.connect
  simp only [hm, hd1, if_true]
  generalize hs0 : ({ (Nao.loadParams p { s with is_connected_ := false }) with
    is_connected_ := true, manager_ := true } : Nao) = s0
  have hs0j : s0.joints_names_ = s.joints_names_ := by rw [← hs0]; rfl
  have hs0c : s0.is_connected_ = true := by rw [← hs0]
  generalize htr0 : tr ++ [Call.memoryProxy] ++ [Call.dcmProxy] ++ [Call.newControllerManager]
    = tr0
  have hic := initializeControllers_state env s0 tr0
  have hi := initialize_state env s0 tr0
  rcases hres : Nao.initializeControllers env s0 tr0 with ⟨b, s1, tr1⟩
  rw [hres] at hic
  simp only [] at hic
  cases b <;> simp only [] <;>
    exact ⟨by rw [hic.2.2.2, hi.2.2.2, hs0c], by rw [hic.1, hi.1], by rw [hic.2.1, hi.2.1],
      by rw [hic.2.2.1, hi.2.2.1, hs0j]⟩

/-- The outcome of `initialize` in closed form: the two registrations are
attempted in order, the second only after the first was accepted, and no
other call is made. -/
theorem initialize_result (env : Env) (s : Nao) (tr : List Call) :
    ( Nao.initialize env s tr).1 =
      (env.createAliasOk (tr ++ [Call.createAlias "Joints"
          (joint.map fun j => "Device/SubDeviceList/" ++ j ++ "/Position/Actuator/Value")]) &&
       env.createAliasOk (tr ++ [Call.createAlias "Joints"
          (joint.map fun j => "Device/SubDeviceList/" ++ j ++ "/Position/Actuator/Value"),
         Call.createAlias "JointsHardness"
          (joint.map fun j => "Device/SubDeviceList/" ++ j ++ "/Hardness/Actuator/Value")])) ∧
    ∃ tr1, ( Nao.initialize env s tr).2.2 = tr ++ tr1 ∧
      ∀ c ∈ tr1, Call.isRegistration c = false := by
  have e1 : List.foldl
      (fun arr i => arr.set i
        ("Device/SubDeviceList/" ++ joint.getD i "" ++ "/Position/Actuator/Value"))
      (List.replicate joint.length "") (List.range joint.length) =
      joint.map (fun j => "Device/SubDeviceList/" ++ j ++ "/Position/Actuator/Value") := rfl
  have e2 : List.foldl
      (fun arr i => arr.set (i + 0)
        ("Device/SubDeviceList/" ++ joint.getD i "" ++ "/Hardness/Actuator/Value"))
      (List.take joint.length
          (joint.map (fun j => "Device/SubDeviceList/" ++ j ++ "/Position/Actuator/Value")) ++
        List.replicate (joint.length -
          (joint.map (fun j => "Device/SubDeviceList/" ++ j ++ "/Position/Actuator/Value")).length)
          "")
      (List.range joint.length) =
      joint.map (fun j => "Device/SubDeviceList/" ++ j ++ "/Hardness/Actuator/Value") := rfl
  unfold Nao.initialize
  simp only [e1, e2, List.append_assoc, List.singleton_append]
  split
  · rename_i h1
    split
    · rename_i h2
      refine ⟨by rw [h1, h2]; rfl, _, rfl, ?_⟩
      intro c hc
      simp only [List.mem_cons, List.mem_singleton, List.not_mem_nil, or_false] at hc
      rcases hc with rfl | rfl <;> rfl
    · rename_i h2
      rw [Bool.not_eq_true] at h2
      refine ⟨by rw [h2, Bool.and_false], _, rfl, ?_⟩
      intro c hc
      simp only [List.mem_cons, List.mem_singleton, List.not_mem_nil, or_false] at hc
      rcases hc with rfl | rfl <;> rfl
  · rename_i h1
    rw [Bool.not_eq_true] at h1
    refine ⟨by rw [h1, Bool.false_and], _, rfl, ?_⟩
    intro c hc
    simp only [List.mem_singleton] at hc
    subst hc
    rfl

/-- When `initialize` fails, `initializeControllers` returns its outcome as is. -/
theorem initializeControllers_of_initialize_false (env : Env) (s : Nao) (tr : List Call)
    (h : ( Nao.initialize env s tr).1 = false) :
    Nao.initializeControllers env s tr = Nao.initialize env s tr := by
  unfold Nao.initializeControllers
  rcases hinit : Nao.initialize env s tr with ⟨b, s1, tr1⟩
  rw [hinit] at h
  simp only [] at h
  subst h
  rfl

/-- C1, as the code behaves: when both proxies are acquired and one of the two
alias registrations is refused, `connect` returns `false` and issues no
handle or interface registration, but `connected()` answers `true`
afterwards: the flag set before `initializeControllers` is not cleared on
the failure path. -/
theorem connect_alias_failure_stays_connected (env : Env) (p : ParamServer) (s : Nao)
    (tr : List Call)
    (hm : env.proxyOk (tr ++ [Call.memoryProxy]) = true)
    (hd : env.proxyOk (tr ++ [Call.memoryProxy, Call.dcmProxy]) = true)
    (hfail :
      env.createAliasOk (tr ++ [Call.memoryProxy, Call.dcmProxy, Call.newControllerManager,
        Call.createAlias "Joints"
          (joint.map fun j => "Device/SubDeviceList/" ++ j ++ "/Position/Actuator/Value")])
        = false ∨
      env.createAliasOk (tr ++ [Call.memoryProxy, Call.dcmProxy, Call.newControllerManager,
        Call.createAlias "Joints"
          (joint.map fun j => "Device/SubDeviceList/" ++ j ++ "/Position/Actuator/Value"),
        Call.createAlias "JointsHardness"
          (joint.map fun j => "Device/SubDeviceList/" ++ j ++ "/Hardness/Actuator/Value")])
        = false) :
    (Nao.connect env p s tr).1 = false ∧
    Nao.connected (Nao.connect env p s tr).2.1 = true ∧
    ∃ tr1, (Nao.connect env p s tr).2.2 = tr ++ tr1 ∧
      ∀ c ∈ tr1, Call.isRegistration c = false := by
  refine ⟨?_, (connect_state env p s tr hm hd).1, ?_⟩
  all_goals
    have hd1 : env.proxyOk (tr ++ [Call.memoryProxy] ++ [Call.dcmProxy]) = true := by
      simpa using hd
    unfold Nao.connect
    simp only [hm, hd1, if_true]
    generalize ({ (Nao.loadParams p { s with is_connected_ := false }) with
      is_connected_ := true, manager_ := true } : Nao) = s0
    obtain ⟨hres, tr1, htr1, hreg⟩ := initialize_result env s0
      (tr ++ [Call.memoryProxy] ++ [Call.dcmProxy] ++ [Call.newControllerManager])
    simp only [List.append_assoc, List.singleton_append, List.cons_append, List.nil_append]
      at hres htr1
    have hfalse : ( Nao.initialize env s0
        (tr ++ [Call.memoryProxy] ++ [Call.dcmProxy] ++ [Call.newControllerManager])).1
        = false := by
      simp only [List.append_assoc, List.singleton_append, List.cons_append, List.nil_append]
      rw [hres]
      rcases hfail with h | h
      · rw [h, Bool.false_and]
      · rw [h, Bool.and_false]
    rw [initializeControllers_of_initialize_false env s0 _ hfalse]
    rcases hinit : Nao.initialize env s0
        (tr ++ [Call.memoryProxy] ++ [Call.dcmProxy] ++ [Call.newControllerManager])
      with ⟨b, s1, tr2⟩
    rw [hinit] at hfalse
    simp only [] at hfalse
    subst hfalse
    simp only []
  · simp only [List.append_assoc, List.singleton_append, List.cons_append, List.nil_append]
      at hinit
    rw [hinit] at htr1
    simp only [] at htr1
    refine ⟨[Call.memoryProxy, Call.dcmProxy, Call.newControllerManager] ++ tr1, ?_, ?_⟩
    · rw [htr1]
      simp only [List.append_assoc, List.singleton_append, List.cons_append, List.nil_append]
    · intro c hc
      simp only [List.cons_append, List.nil_append, List.mem_cons] at hc
      rcases hc with rfl | rfl | rfl | hc
      · rfl
      · rfl
      · rfl
      · exact hreg c hc

/-- The two failing inputs of C1: a bus refusing "Joints", and a bus refusing
only "JointsHardness", each met by a freshly constructed driver. -/
theorem connect_alias_failure_stays_connected_witness :
    (aliasFailEnv.proxyOk ([] ++ [Call.memoryProxy]) = true ∧
     aliasFailEnv.proxyOk ([] ++ [Call.memoryProxy, Call.dcmProxy]) = true ∧
     (Nao.connect aliasFailEnv noParams (Nao.construct []) []).1 = false ∧
     Nao.connected (Nao.connect aliasFailEnv noParams (Nao.construct []) []).2.1 = true ∧
     ∃ tr1, (Nao.connect aliasFailEnv noParams (Nao.construct []) []).2.2 = [] ++ tr1 ∧
       ∀ c ∈ tr1, Call.isRegistration c = false) ∧
    (hardnessFailEnv.proxyOk ([] ++ [Call.memoryProxy]) = true ∧
     hardnessFailEnv.proxyOk ([] ++ [Call.memoryProxy, Call.dcmProxy]) = true ∧
     (Nao.connect hardnessFailEnv noParams (Nao.construct []) []).1 = false ∧
     Nao.connected (Nao.connect hardnessFailEnv noParams (Nao.construct []) []).2.1 = true ∧
     ∃ tr1, (Nao.connect hardnessFailEnv noParams (Nao.construct []) []).2.2 = [] ++ tr1 ∧
       ∀ c ∈ tr1, Call.isRegistration c = false) :=
  ⟨⟨rfl, rfl,
     connect_alias_failure_stays_connected aliasFailEnv noParams (Nao.construct []) []
       rfl rfl (Or.inl rfl)⟩,
   ⟨rfl, rfl,
     connect_alias_failure_stays_connected hardnessFailEnv noParams (Nao.construct []) []
       rfl rfl (Or.inr rfl)⟩⟩

/-- C9, as the code behaves: on a bus that hands out both proxies, a second
`connect` leaves the connectivity flag, the joint list and the joint count as
the first did, but appends another sensor address per joint to
`joints_names_`, so the two states differ and the address list no longer has
one entry per joint. -/
theorem connect_twice_grows_sensor_list (env : Env) (p : ParamServer) (s : Nao)
    (tr : List Call) (hproxy : ∀ h, env.proxyOk h = true) :
    (Nao.connect env p (Nao.connect env p s tr).2.1 (Nao.connect env p s tr).2.2).2.1.is_connected_
      = (Nao.connect env p s tr).2.1.is_connected_ ∧
    (Nao.connect env p (Nao.connect env p s tr).2.1 (Nao.connect env p s tr).2.2).2.1.joint_names_
      = (Nao.connect env p s tr).2.1.joint_names_ ∧
    (Nao.connect env p (Nao.connect env p s tr).2.1
        (Nao.connect env p s tr).2.2).2.1.number_of_joints_
      = (Nao.connect env p s tr).2.1.number_of_joints_ ∧
    (Nao.connect env p (Nao.connect env p s tr).2.1
        (Nao.connect env p s tr).2.2).2.1.joints_names_.length
      = (Nao.connect env p s tr).2.1.joints_names_.length + 17 ∧
    (Nao.connect env p (Nao.connect env p s tr).2.1
        (Nao.connect env p s tr).2.2).2.1.joints_names_
      ≠ (Nao.connect env p s tr).2.1.joints_names_ ∧
    (Nao.connect env p (Nao.connect env p s tr).2.1
        (Nao.connect env p s tr).2.2).2.1.joints_names_.length
      ≠ (Nao.connect env p (Nao.connect env p s tr).2.1
        (Nao.connect env p s tr).2.2).2.1.number_of_joints_ := by
  obtain ⟨h1c, h1n, h1k, h1j⟩ := connect_state env p s tr (hproxy _) (hproxy _)
  obtain ⟨h2c, h2n, h2k, h2j⟩ := connect_state env p (Nao.connect env p s tr).2.1
    (Nao.connect env p s tr).2.2 (hproxy _) (hproxy _)
  have hlen : (Nao.connect env p (Nao.connect env p s tr).2.1
        (Nao.connect env p s tr).2.2).2.1.joints_names_.length
      = (Nao.connect env p s tr).2.1.joints_names_.length + 17 := by
    rw [h2j, List.length_append]
    rfl
  refine ⟨by rw [h1c, h2c], by rw [h1n, h2n], by rw [h1k, h2k], hlen, ?_, ?_⟩
  · intro heq
    have hsame := congrArg List.length heq
    omega
  · have h1len : (Nao.connect env p s tr).2.1.joints_names_.length
        = s.joints_names_.length + 17 := by
      rw [h1j, List.length_append]
      rfl
    intro heq
    rw [hlen, h2k, h1len] at heq
    omega

/-- The failing input of C9: two `connect` calls on the bus that accepts every call leave 17, then 34 sensor addresses. -/
theorem connect_twice_grows_sensor_list_witness :
    (∀ h, okEnv.proxyOk h = true) ∧
    (Nao.connect okEnv noParams (Nao.construct []) []).1 = true ∧
    (Nao.connect okEnv noParams (Nao.construct []) []).2.1.joints_names_.length = 17 ∧
    (Nao.connect okEnv noParams (Nao.connect okEnv noParams (Nao.construct []) []).2.1
      (Nao.connect okEnv noParams (Nao.construct []) []).2.2).1 = true ∧
    (Nao.connect okEnv noParams (Nao.connect okEnv noParams (Nao.construct []) []).2.1
      (Nao.connect okEnv noParams (Nao.construct []) []).2.2).2.1.joints_names_.length = 34 ∧
    (Nao.connect okEnv noParams (Nao.connect okEnv noParams (Nao.construct []) []).2.1
        (Nao.connect okEnv noParams (Nao.construct []) []).2.2).2.1.joints_names_
      ≠ (Nao.connect okEnv noParams (Nao.construct []) []).2.1.joints_names_ :=
  ⟨fun _ => rfl, rfl, rfl, rfl, rfl,
    (connect_twice_grows_sensor_list okEnv noParams (Nao.construct []) []
      (fun _ => rfl)).2.2.2.2.1⟩

/-! ## Claims on the control loop -/

/-- Asynchronous calls only ever clear the connectivity flag. -/
theorem deliver_eq (es : List AsyncEvent) : ∀ s : Nao,
    deliver es s =
      { s with is_connected_ := s.is_connected_ && es.all fun e => !e.clearsFlag } := by
  induction es with
  | nil => intro s; simp [deliver]
  | cons e rest ih =>
    intro s
    have hstep : deliver (e :: rest) s = deliver rest (AsyncEvent.apply s e) := rfl
    rw [hstep, ih]
    cases e with
    | disconnect =>
      cases hc : s.is_connected_ <;>
        simp [AsyncEvent.apply, Nao.disconnect, AsyncEvent.clearsFlag, hc]
    | brokerDisconnected ev b i =>
      by_cases hb : b = "Nao Driver Broker" <;>
        simp [AsyncEvent.apply, Nao.brokerDisconnected, AsyncEvent.clearsFlag, hb]

/-- A ready driver stays ready under asynchronous calls that do not clear the flag. -/
theorem deliver_ready (es : List AsyncEvent) (s : Nao) (hs : s.Ready)
    (hkeep : ∀ e ∈ es, e.clearsFlag = false) :
    deliver es s = s := by
  rw [deliver_eq]
  have hall : (es.all fun e => !e.clearsFlag) = true := by
    rw [List.all_eq_true]
    intro e he
    rw [hkeep e he]
    rfl
  rw [hall]
  have h1 := hs.1
  cases s
  simp only [] at h1
  subst h1
  rfl

/-- A sensor read on a ready driver returns normally, whether the bus throws
or answers with at most one value per joint, and leaves the driver ready. -/
theorem readJoints_ready (env : Env) (s : Nao) (tr : List Call) (hs : s.Ready)
    (hread : ∀ data, env.getListData (tr ++ [Call.getListData s.joints_names_]) = some data →
      data.length ≤ s.number_of_joints_) :
    ∃ s1, Nao.readJoints env s tr = .ok (s1, tr ++ [Call.getListData s.joints_names_]) ∧
      s1.Ready ∧ s1.number_of_joints_ = s.number_of_joints_ ∧
      s1.joints_names_ = s.joints_names_ := by
  obtain ⟨h1, h2, h3, h4, h5⟩ := hs
  cases hd : env.getListData (tr ++ [Call.getListData s.joints_names_]) with
  | none =>
    exact ⟨s, by simp only [Nao.readJoints, hd], ⟨h1, h2, h3, h4, h5⟩, rfl, rfl⟩
  | some data =>
    have hlen := hread data hd
    obtain ⟨A, C, hrun, hA, hC, _, _⟩ := readJointsLoop_frame data 0 s (by omega) (by omega)
    refine ⟨{ s with joint_angles_ := A, joint_commands_ := C },
      by simp only [Nao.readJoints, hd, hrun], ⟨h1, h2, ?_, ?_, h5⟩, rfl, rfl⟩
    · exact hA.trans h3
    · exact hC.trans h4

/-- A controller update on a ready driver returns normally and leaves it ready. -/
theorem managerUpdate_ready (env : Env) (s : Nao) (tr : List Call) (hs : s.Ready) :
    ∃ s1, managerUpdate env s tr = .ok (s1, tr ++ [Call.update]) ∧
      s1.Ready ∧ s1.number_of_joints_ = s.number_of_joints_ ∧
      s1.joints_names_ = s.joints_names_ := by
  obtain ⟨h1, h2, h3, h4, h5⟩ := hs
  refine ⟨{ s with joint_commands_ := ((List.range s.joint_commands_.length).map
      (env.update (tr ++ [Call.update]) s.joint_angles_ s.joint_commands_)) },
    by simp only [managerUpdate, h2, if_true], ⟨h1, h2, h3, ?_, h5⟩, rfl, rfl⟩
  simp only [List.length_map, List.length_range]
  exact h4

/-- A write phase on a ready driver returns normally whatever the bus does: a
throwing `getTime` or `setAlias` is caught.  It issues no sensor read and no
controller update, and leaves the driver ready. -/
theorem writeJoints_ready (env : Env) (s : Nao) (tr : List Call) (hs : s.Ready) :
    ∃ s1 w, Nao.writeJoints env s tr = .ok (s1, tr ++ w) ∧
      s1.Ready ∧ s1.number_of_joints_ = s.number_of_joints_ ∧
      s1.joints_names_ = s.joints_names_ ∧
      ∀ c ∈ w, Call.isRead c = false ∧ Call.isUpdate c = false := by
  obtain ⟨h1, h2, h3, h4, h5⟩ := hs
  have hch := changedLoop_eq_any s (List.range s.number_of_joints_)
    (fun i hi => by
      have := List.mem_range.mp hi
      omega)
  generalize ((List.range s.number_of_joints_).any fun i =>
    decide (|toDouble (s.joint_commands_.getD i 0 - s.joint_angles_.getD i 0)| > s.joint_precision_))
    = b at hch
  cases b with
  | false =>
    exact ⟨s, [], by simp only [Nao.writeJoints, hch, List.append_nil],
      ⟨h1, h2, h3, h4, h5⟩, rfl, rfl, fun c hc => by cases hc⟩
  | true =>
    cases hT : env.getTime (tr ++ [Call.getTime 0]) with
    | none =>
      refine ⟨s, [Call.getTime 0], by simp only [Nao.writeJoints, hch, hT],
        ⟨h1, h2, h3, h4, h5⟩, rfl, rfl, ?_⟩
      intro c hc
      simp only [List.mem_singleton] at hc
      subst hc
      exact ⟨rfl, rfl⟩
    | some T =>
      refine ⟨{ s with commands_ :=
          { s.commands_ with entries := s.joint_commands_.map fun v => (toFloat v, T) } },
        [Call.getTime 0, Call.setAlias
          { s.commands_ with entries := s.joint_commands_.map fun v => (toFloat v, T) }],
        ?_, ⟨h1, h2, h3, h4, ?_⟩, rfl, rfl, ?_⟩
      · simp only [Nao.writeJoints, hch, hT, fillLoop_all s T h4 h5, ite_self,
          List.append_assoc, List.singleton_append]
      · simp only [List.length_map]
        exact h4
      · intro c hc
        simp only [List.mem_cons, List.mem_singleton, List.not_mem_nil, or_false] at hc
        rcases hc with rfl | rfl <;> exact ⟨rfl, rfl⟩

/-- While the flag stays set and `ros::ok()` holds for the next `N` cycle
checks and fails at the one after, the loop entered at check `k` on a ready
driver runs exactly `N` cycles and exits, whatever the write calls do. -/
theorem controllerLoop_cycles (env : Env) (n : Nat)
    (hread : ∀ h data, env.getListData h = some data → data.length ≤ n) :
    ∀ (N k fuel : Nat) (s : Nao) (tr : List Call),
      s.Ready → s.number_of_joints_ = n →
      (∀ j, k ≤ j → j ≤ k + N → ∀ e ∈ env.async j, e.clearsFlag = false) →
      (∀ j, k ≤ j → j < k + N → env.rosOk j = true) →
      env.rosOk (k + N) = false →
      N < fuel →
      ∃ s1 tr1, Nao.controllerLoop env fuel k s tr = .exited s1 (tr ++ tr1) ∧ s1.Ready ∧
        countCalls Call.isRead tr1 = N ∧ countCalls Call.isUpdate tr1 = N := by
  intro N
  induction N with
  | zero =>
    intro k fuel s tr hs _ hkeep _ hstop hfuel
    obtain ⟨fuel1, rfl⟩ : ∃ f, fuel = f + 1 := ⟨fuel - 1, by omega⟩
    have hdel := deliver_ready (env.async k) s hs (hkeep k (le_refl k) (by omega))
    refine ⟨s, [], ?_, hs, rfl, rfl⟩
    rw [Nat.add_zero] at hstop
    simp only [Nao.controllerLoop, hdel, hstop, List.append_nil]
    rfl
  | succ N ih =>
    intro k fuel s tr hs hn hkeep hrun hstop hfuel
    obtain ⟨fuel1, rfl⟩ : ∃ f, fuel = f + 1 := ⟨fuel - 1, by omega⟩
    have hdel := deliver_ready (env.async k) s hs (hkeep k (le_refl k) (by omega))
    have hok := hrun k (le_refl k) (by omega)
    obtain ⟨s1, hr, hs1, hn1, _⟩ := readJoints_ready env s tr hs
      (fun data hd => by rw [hn]; exact hread _ data hd)
    obtain ⟨s2, hu, hs2, hn2, _⟩ := managerUpdate_ready env s1
      (tr ++ [Call.getListData s.joints_names_]) hs1
    obtain ⟨s3, w, hw, hs3, hn3, _, hwc⟩ := writeJoints_ready env s2
      (tr ++ [Call.getListData s.joints_names_] ++ [Call.update]) hs2
    obtain ⟨s4, tr4, hloop, hs4, hcr, hcu⟩ := ih (k + 1) fuel1 s3
      (tr ++ [Call.getListData s.joints_names_] ++ [Call.update] ++ w) hs3
      (by rw [hn3, hn2, hn1, hn])
      (fun j h1 h2 => hkeep j (by omega) (by omega))
      (fun j h1 h2 => hrun j (by omega) (by omega))
      (by rw [← hstop]; congr 1; omega)
      (by omega)
    refine ⟨s4, [Call.getListData s.joints_names_] ++ [Call.update] ++ w ++ tr4, ?_, hs4,
      ?_, ?_⟩
    · simp only [List.append_assoc] at hu hw hloop
      simp only [Nao.controllerLoop, hdel, hok, hs.1, hr, hu, hw, hloop, if_true,
        Bool.not_true, Bool.false_eq_true, if_false, List.append_assoc]
    · have hw0 : countCalls Call.isRead w = 0 :=
        List.countP_eq_zero.mpr (fun c hc => by rw [(hwc c hc).1]; exact Bool.false_ne_true)
      simp only [countCalls, List.countP_append] at hcr hw0 ⊢
      rw [hcr, hw0]
      simp only [List.countP_cons, List.countP_nil, Call.isRead, Call.isUpdate]
      simp
      omega
    · have hw0 : countCalls Call.isUpdate w = 0 :=
        List.countP_eq_zero.mpr (fun c hc => by rw [(hwc c hc).2]; exact Bool.false_ne_true)
      simp only [countCalls, List.countP_append] at hcu hw0 ⊢
      rw [hcu, hw0]
      simp only [List.countP_cons, List.countP_nil, Call.isRead, Call.isUpdate]
      simp
      omega

/-- C6: on a ready driver, if the connectivity flag is not cleared and
`ros::ok()` holds at the first `N` cycle checks and fails at the next, then
`run` exits after exactly `N` cycles, `N` sensor reads and `N` controller
updates, with the flag still set, for every behaviour of `getTime` and
`setAlias`: a throwing write call is caught inside `writeJoints` and neither
ends the loop nor touches the flag. -/
theorem run_completes_cycles_despite_write_failures (env : Env) (N fuel : Nat) (s : Nao)
    (tr : List Call) (hs : s.Ready)
    (hread : ∀ h data, env.getListData h = some data → data.length ≤ s.number_of_joints_)
    (hkeep : ∀ j, j ≤ N → ∀ e ∈ env.async j, e.clearsFlag = false)
    (hrun : ∀ j, j < N → env.rosOk j = true)
    (hstop : env.rosOk N = false)
    (hfuel : N < fuel) :
    ∃ s1 tr1, Nao.run env fuel s tr = .exited s1 (tr ++ tr1) ∧
      s1.is_connected_ = true ∧
      countCalls Call.isRead tr1 = N ∧ countCalls Call.isUpdate tr1 = N := by
  obtain ⟨s1, tr1, hloop, hs1, hcr, hcu⟩ :=
    controllerLoop_cycles env s.number_of_joints_ hread N 0 fuel s tr hs rfl
      (fun j _ h2 => hkeep j (by omega))
      (fun j _ h2 => hrun j (by omega))
      (by rw [Nat.zero_add]; exact hstop)
      hfuel
  exact ⟨s1, tr1, hloop, hs1.1, hcr, hcu⟩

/-- Five cycles on the bus whose `setAlias` throws on every third write, with the controllers moving every joint in every cycle. -/
theorem run_completes_cycles_despite_write_failures_witness :
    readyNao.Ready ∧
    (∀ h data, thirdWriteFailsEnv.getListData h = some data →
      data.length ≤ readyNao.number_of_joints_) ∧
    (∀ j, j ≤ 5 → ∀ e ∈ thirdWriteFailsEnv.async j, e.clearsFlag = false) ∧
    (∀ j, j < 5 → thirdWriteFailsEnv.rosOk j = true) ∧
    thirdWriteFailsEnv.rosOk 5 = false ∧
    ∃ s1 tr1, Nao.run thirdWriteFailsEnv 6 readyNao [] = .exited s1 ([] ++ tr1) ∧
      s1.is_connected_ = true ∧
      countCalls Call.isRead tr1 = 5 ∧ countCalls Call.isUpdate tr1 = 5 :=
  have hs : readyNao.Ready := ⟨rfl, rfl, rfl, rfl, rfl⟩
  have hread : ∀ h data, thirdWriteFailsEnv.getListData h = some data →
      data.length ≤ readyNao.number_of_joints_ := by
    intro h data hd
    have hsome : some (List.replicate 17 (1 : ℚ)) = some data := hd
    cases hsome
    decide
  have hkeep : ∀ j, j ≤ 5 → ∀ e ∈ thirdWriteFailsEnv.async j, e.clearsFlag = false :=
    fun _ _ _ he => nomatch he
  have hrun : ∀ j, j < 5 → thirdWriteFailsEnv.rosOk j = true :=
    fun j hj => decide_eq_true hj
  ⟨hs, hread, hkeep, hrun, rfl,
    run_completes_cycles_despite_write_failures thirdWriteFailsEnv 5 6 readyNao []
      hs hread hkeep hrun rfl (by decide)⟩

/-- C7: `disconnect()` and `brokerDisconnected` for "Nao Driver Broker" clear
the connectivity flag; and when, at a cycle check, the flag is already
false, or one of these two calls has arrived, or `ros::ok()` is false, the loop
exits in that cycle with the trace unchanged: no sensor read, no controller
update, no `getTime`, no `setAlias`. -/
theorem controllerLoop_exits_without_bus_call (env : Env) (fuel k : Nat) (s : Nao)
    (tr : List Call)
    (hstop : s.is_connected_ = false ∨ AsyncEvent.disconnect ∈ env.async k ∨
      (∃ ev id, AsyncEvent.brokerDisconnected ev "Nao Driver Broker" id ∈ env.async k) ∨
      env.rosOk k = false) :
    Nao.connected (Nao.disconnect s) = false ∧
    (∀ ev id, Nao.connected (Nao.brokerDisconnected s ev "Nao Driver Broker" id) = false) ∧
    ∃ s1, Nao.controllerLoop env (fuel + 1) k s tr = .exited s1 tr ∧
      (env.rosOk k = true → Nao.connected s1 = false) := by
  refine ⟨?_, ?_, ?_⟩
  · cases hc : s.is_connected_ <;> simp [Nao.disconnect, Nao.connected, hc]
  · intro ev id
    simp [Nao.brokerDisconnected, Nao.connected]
  · cases hok : env.rosOk k with
    | false =>
      exact ⟨deliver (env.async k) s, by simp only [Nao.controllerLoop, hok]; rfl,
        fun h => by cases h⟩
    | true =>
      have hflag : (deliver (env.async k) s).is_connected_ = false := by
        rw [deliver_eq]
        rcases hstop with h | h | ⟨ev, id, h⟩ | h
        · simp [h]
        · have : (env.async k).all (fun e => !e.clearsFlag) = false := by
            rw [List.all_eq_false]
            exact ⟨_, h, by simp [AsyncEvent.clearsFlag]⟩
          simp [this]
        · have : (env.async k).all (fun e => !e.clearsFlag) = false := by
            rw [List.all_eq_false]
            exact ⟨_, h, by simp [AsyncEvent.clearsFlag]⟩
          simp [this]
        · rw [hok] at h
          cases h
      refine ⟨deliver (env.async k) s, ?_, fun _ => hflag⟩
      simp only [Nao.controllerLoop, hok, hflag, if_true, Bool.not_false]

/-- A `disconnect()` that arrives before the second cycle check. -/
theorem controllerLoop_exits_without_bus_call_witness :
    (readyNao.is_connected_ = false ∨ AsyncEvent.disconnect ∈ disconnectEnv.async 1 ∨
      (∃ ev id, AsyncEvent.brokerDisconnected ev "Nao Driver Broker" id
        ∈ disconnectEnv.async 1) ∨
      disconnectEnv.rosOk 1 = false) ∧
    Nao.connected (Nao.disconnect readyNao) = false ∧
    (∀ ev id,
      Nao.connected (Nao.brokerDisconnected readyNao ev "Nao Driver Broker" id) = false) ∧
    ∃ s1, Nao.controllerLoop disconnectEnv (2 + 1) 1 readyNao [Call.update] =
        .exited s1 [Call.update] ∧
      (disconnectEnv.rosOk 1 = true → Nao.connected s1 = false) :=
  ⟨Or.inr (Or.inl (List.mem_singleton.mpr rfl)),
    controllerLoop_exits_without_bus_call disconnectEnv 2 1 readyNao [Call.update]
      (Or.inr (Or.inl (List.mem_singleton.mpr rfl)))⟩

/-! ## Further properties of the startup sequence -/

/-- When the memory proxy cannot be acquired, `connect` returns `false` with
the connectivity flag cleared, after that single call. -/
theorem connect_memory_proxy_failure (env : Env) (p : ParamServer) (s : Nao)
    (tr : List Call) (hm : env.proxyOk (tr ++ [Call.memoryProxy]) = false) :
    (Nao.connect env p s tr).1 = false ∧
    Nao.connected (Nao.connect env p s tr).2.1 = false ∧
    (Nao.connect env p s tr).2.2 = tr ++ [Call.memoryProxy] := by
  unfold Nao.connect
  simp only [hm, Bool.false_eq_true, if_false]
  simp only [Nao.connected, Nao.loadParams, and_self]

/-- A reconnect attempt of a connected driver on a bus without memory proxy. -/
theorem connect_memory_proxy_failure_witness :
    noProxyEnv.proxyOk ([] ++ [Call.memoryProxy]) = false ∧
    (Nao.connect noProxyEnv noParams readyNao []).1 = false ∧
    Nao.connected (Nao.connect noProxyEnv noParams readyNao []).2.1 = false ∧
    (Nao.connect noProxyEnv noParams readyNao []).2.2 = [] ++ [Call.memoryProxy] :=
  ⟨rfl, connect_memory_proxy_failure noProxyEnv noParams readyNao [] rfl⟩

/-- After two successful `connect` calls on a bus that answers one value per
requested address, the sensor read asks for 34 values and the copy loop of
`readJoints` writes past the end of the 17-slot vectors. -/
theorem readJoints_after_second_connect_out_of_bounds :
    (Nao.connect echoEnv noParams
      (Nao.connect echoEnv noParams (Nao.construct []) []).2.1 []).1 = true ∧
    (Nao.connect echoEnv noParams
      (Nao.connect echoEnv noParams (Nao.construct []) []).2.1 []).2.1.joint_angles_.length
      = 17 ∧
    Nao.readJoints echoEnv
      (Nao.connect echoEnv noParams
        (Nao.connect echoEnv noParams (Nao.construct []) []).2.1 []).2.1 []
      = .error Fault.outOfBounds := by
  refine ⟨rfl, rfl, ?_⟩
  rfl

end PepperDCM
